import Mathlib

/-!
Shallow embedding of the OPD token allocation engine:
  * `src/domain/enums.ts`, `src/domain/Token.ts`, `src/domain/Slot.ts` — data model
  * `src/services/slotCapacity.ts` — capacity evaluator
  * `src/services/allocationEngine.ts` — allocation decision engine
  * `src/services/slotMutator.ts` — state mutator

TypeScript string enums are strings at runtime, so `TokenSource` and
`TokenStatus` are embedded as `String` with named constants; a source that is
none of the five known channel strings falls to the `default` branch of
`canAllocateToken`.  JavaScript numbers in capacity configuration and
priorities are embedded as `Int` (they may go negative, e.g.
`max - emergencyBuffer - priorityBuffer`).  The mutator's in-place array
mutations are embedded as pure state passing: each operation returns the new
slot value.
-/

namespace Opd

/-! `TokenSource` enum from `src/domain/enums.ts`: runtime values are strings. -/

namespace TokenSource

def ONLINE : String := "ONLINE"

def WALK_IN : String := "WALK_IN"

def PRIORITY : String := "PRIORITY"

def FOLLOW_UP : String := "FOLLOW_UP"

def EMERGENCY : String := "EMERGENCY"

end TokenSource

/-- The five known token source strings of the `TokenSource` enum. -/
def knownSources : List String :=
  [TokenSource.ONLINE, TokenSource.WALK_IN, TokenSource.PRIORITY,
   TokenSource.FOLLOW_UP, TokenSource.EMERGENCY]

/-! `PriorityLevel` enum from `src/domain/enums.ts` (numeric values). -/

namespace PriorityLevel

def LOW : Int := 20

def MEDIUM : Int := 40

def HIGH : Int := 60

def VERY_HIGH : Int := 80

def EMERGENCY : Int := 100

end PriorityLevel

/-- `Token` from `src/domain/Token.ts`.  The `Date` fields (`createdAt`,
`checkedInAt`, `completedAt`) never influence any service-layer logic and are
omitted from the embedding. -/
structure Token where
  id : String
  patientId : String
  doctorId : String
  slotId : String
  source : String
  priority : Int
  status : String
  movable : Bool
deriving DecidableEq

/-- `SlotCapacity` from `src/domain/Slot.ts`. -/
structure SlotCapacity where
  max : Int
  emergencyBuffer : Int
  priorityBuffer : Int
deriving DecidableEq

/-- `Slot` from `src/domain/Slot.ts` (the `Date` fields `startTime`/`endTime`
never influence service-layer logic and are omitted). -/
structure Slot where
  id : String
  doctorId : String
  capacity : SlotCapacity
  tokens : List Token
  waitlist : List Token
deriving DecidableEq

/-! ## Capacity evaluator (`src/services/slotCapacity.ts`) -/

/-- `getTotalAllocated`: number of tokens currently allocated in the slot. -/
def getTotalAllocated (slot : Slot) : Nat :=
  slot.tokens.length

/-- `getEmergencyCount`: count of EMERGENCY source tokens in the slot. -/
def getEmergencyCount (slot : Slot) : Nat :=
  (slot.tokens.filter (fun token => token.source == TokenSource.EMERGENCY)).length

/-- `getPriorityCount`: count of PRIORITY and FOLLOW_UP source tokens. -/
def getPriorityCount (slot : Slot) : Nat :=
  (slot.tokens.filter (fun token =>
    token.source == TokenSource.PRIORITY || token.source == TokenSource.FOLLOW_UP)).length

/-- `getGeneralCount`: count of ONLINE and WALK_IN source tokens. -/
def getGeneralCount (slot : Slot) : Nat :=
  (slot.tokens.filter (fun token =>
    token.source == TokenSource.ONLINE || token.source == TokenSource.WALK_IN)).length

/-- `hasHardCapacity`: total allocated is below the hard max capacity. -/
def hasHardCapacity (slot : Slot) : Bool :=
  decide ((getTotalAllocated slot : Int) < slot.capacity.max)

/-- `canConsumeEmergencyBuffer`: emergency count is below the emergency buffer. -/
def canConsumeEmergencyBuffer (slot : Slot) : Bool :=
  decide ((getEmergencyCount slot : Int) < slot.capacity.emergencyBuffer)

/-- `canConsumePriorityBuffer`: priority+followup count is below the priority buffer. -/
def canConsumePriorityBuffer (slot : Slot) : Bool :=
  decide ((getPriorityCount slot : Int) < slot.capacity.priorityBuffer)

/-- `canAllocateToken`: admission predicate; the `switch` on `token.source`
is embedded as a chain of string comparisons, with the final `else` as the
`default` branch. -/
def canAllocateToken (slot : Slot) (token : Token) : Bool :=
  if !hasHardCapacity slot then
    false
  else
    let reservedCapacity := slot.capacity.emergencyBuffer + slot.capacity.priorityBuffer
    let generalCapacity := slot.capacity.max - reservedCapacity
    let generalCount : Int := getGeneralCount slot
    if token.source == TokenSource.EMERGENCY then
      canConsumeEmergencyBuffer slot || decide (generalCount < generalCapacity)
    else if token.source == TokenSource.PRIORITY || token.source == TokenSource.FOLLOW_UP then
      canConsumePriorityBuffer slot || decide (generalCount < generalCapacity)
    else if token.source == TokenSource.ONLINE || token.source == TokenSource.WALK_IN then
      decide (generalCount < generalCapacity)
    else
      false

/-! ## Allocation decision engine (`src/services/allocationEngine.ts`) -/

/-- `AllocationStatus` from `src/services/allocationEngine.ts`. -/
inductive AllocationStatus where
  | ALLOCATED
  | WAITLISTED
  | REJECTED
  | DISPLACED
deriving DecidableEq

/-- `AllocationResult` from `src/services/allocationEngine.ts`; the optional
fields are `Option`s. -/
structure AllocationResult where
  status : AllocationStatus
  allocatedToken : Option Token
  displacedToken : Option Token
  reason : Option String
deriving DecidableEq

/-- The body of the `for` loop in `findLowestPriorityMovableToken`: keep the
current lowest unless the visited token's priority is strictly smaller. -/
def pickLowest (first : Token) (tokens : List Token) : Token :=
  tokens.foldl
    (fun lowestToken token =>
      if token.priority < lowestToken.priority then token else lowestToken)
    first

/-- `findLowestPriorityMovableToken`: among movable, non-emergency occupants,
the one with the lowest priority, earliest occupant on ties (`null` becomes
`none`).  The source initializes the loop with `eligibleTokens[0]` and then
iterates over the whole `eligibleTokens` array, which `pickLowest` mirrors. -/
def findLowestPriorityMovableToken (slot : Slot) : Option Token :=
  let eligibleTokens := slot.tokens.filter
    (fun token => token.movable == true && token.source != TokenSource.EMERGENCY)
  match eligibleTokens with
  | [] => none
  | first :: rest => some (pickLowest first (first :: rest))

/-- `allocateTokenToSlot`: the four-step decision.  The `lowestPriorityToken
!== null && token.priority > lowestPriorityToken.priority` guard is embedded
as a `match` whose fall-through branches duplicate steps 3 and 4. -/
def allocateTokenToSlot (slot : Slot) (token : Token) : AllocationResult :=
  if canAllocateToken slot token then
    ⟨AllocationStatus.ALLOCATED, some token, none,
      some "Slot has available capacity for this token"⟩
  else
    match findLowestPriorityMovableToken slot with
    | some lowestPriorityToken =>
      if lowestPriorityToken.priority < token.priority then
        ⟨AllocationStatus.DISPLACED, some token, some lowestPriorityToken,
          some "Token can displace lower-priority token"⟩
      else if PriorityLevel.MEDIUM ≤ token.priority then
        ⟨AllocationStatus.WAITLISTED, some token, none,
          some "Slot full, token added to waitlist due to sufficient priority"⟩
      else
        ⟨AllocationStatus.REJECTED, none, none,
          some "Slot full and token priority too low for waitlist"⟩
    | none =>
      if PriorityLevel.MEDIUM ≤ token.priority then
        ⟨AllocationStatus.WAITLISTED, some token, none,
          some "Slot full, token added to waitlist due to sufficient priority"⟩
      else
        ⟨AllocationStatus.REJECTED, none, none,
          some "Slot full and token priority too low for waitlist"⟩

/-! ## State mutator (`src/services/slotMutator.ts`), embedded as pure state
passing: each operation returns the updated slot (and, for `removeTokenById`,
the removed token). -/

/-- `removeTokenById`: remove the first token whose `id` matches, returning
the remaining list and the removed token (`undefined` becomes `none`).
Embeds `findIndex` + `splice` structurally: the first match is removed. -/
def removeTokenById (tokens : List Token) (tokenId : String) : List Token × Option Token :=
  match tokens with
  | [] => ([], none)
  | t :: rest =>
    if t.id == tokenId then
      (rest, some t)
    else
      let r := removeTokenById rest tokenId
      (t :: r.1, r.2)

/-- The `for` loop of `findHighestPriorityIndex`: the accumulator is
`(highestIndex, waitlist[highestIndex], i)` and a visited token replaces the
current best only when its priority is strictly greater. -/
def pickHighestIdx (acc : Nat × Token × Nat) (tokens : List Token) : Nat × Token × Nat :=
  tokens.foldl
    (fun a t =>
      if a.2.1.priority < t.priority then (a.2.2, t, a.2.2 + 1)
      else (a.1, a.2.1, a.2.2 + 1))
    acc

/-- `findHighestPriorityIndex`: index of the highest-priority waitlist entry,
earliest entry on ties (`-1` for the empty waitlist becomes `none`). -/
def findHighestPriorityIndex (waitlist : List Token) : Option Nat :=
  match waitlist with
  | [] => none
  | first :: rest => some (pickHighestIdx (0, first, 1) rest).1

/-- `promoteFromWaitlist`: move the highest-priority waitlist entry to the end
of `tokens`.  `splice(highestIndex, 1)[0]` is embedded as `[highestIndex]?`
plus `eraseIdx highestIndex`; the index returned by
`findHighestPriorityIndex` is always in bounds, so the inner `none` branch is
unreachable. -/
def promoteFromWaitlist (slot : Slot) : Slot :=
  match findHighestPriorityIndex slot.waitlist with
  | none => slot
  | some highestIndex =>
    match slot.waitlist[highestIndex]? with
    | none => slot
    | some promoted =>
      Slot.mk slot.id slot.doctorId slot.capacity
        (slot.tokens ++ [promoted]) (slot.waitlist.eraseIdx highestIndex)

/-- `applyAllocationResult`: apply a decision to the slot.  The source's
truthiness guards on the optional fields are embedded as `match`es on the
`Option`s. -/
def applyAllocationResult (slot : Slot) (result : AllocationResult) : Slot :=
  match result.status with
  | AllocationStatus.ALLOCATED =>
    match result.allocatedToken with
    | some t =>
      Slot.mk slot.id slot.doctorId slot.capacity (slot.tokens ++ [t]) slot.waitlist
    | none => slot
  | AllocationStatus.DISPLACED =>
    match result.displacedToken, result.allocatedToken with
    | some displaced, some allocated =>
      let removed := removeTokenById slot.tokens displaced.id
      Slot.mk slot.id slot.doctorId slot.capacity
        (removed.1 ++ [allocated]) (slot.waitlist ++ [displaced])
    | _, _ => slot
  | AllocationStatus.WAITLISTED =>
    match result.allocatedToken with
    | some t =>
      Slot.mk slot.id slot.doctorId slot.capacity slot.tokens (slot.waitlist ++ [t])
    | none => slot
  | AllocationStatus.REJECTED => slot

/-- `cancelToken`: remove the token from `slot.tokens` if present; only when
removal succeeded (`removed` is truthy), promote from the waitlist. -/
def cancelToken (slot : Slot) (tokenId : String) : Slot :=
  match removeTokenById slot.tokens tokenId with
  | (tokens1, some _) =>
    promoteFromWaitlist
      (Slot.mk slot.id slot.doctorId slot.capacity tokens1 slot.waitlist)
  | (tokens1, none) =>
    Slot.mk slot.id slot.doctorId slot.capacity tokens1 slot.waitlist

/-- `markNoShow`: same behavior as `cancelToken`. -/
def markNoShow (slot : Slot) (tokenId : String) : Slot :=
  cancelToken slot tokenId

/-! ## Derived notions used by the verification -/

/-- Identifiers of a token list, in order. -/
def tokenIds (l : List Token) : List String :=
  l.map Token.id

/-- Identifiers across occupants and waitlist. -/
def slotIds (slot : Slot) : List String :=
  tokenIds slot.tokens ++ tokenIds slot.waitlist

/-- No token identifier occurs twice across `occupants ∪ waitlist`. -/
abbrev NoDupIds (slot : Slot) : Prop :=
  (slotIds slot).Nodup

/-- The occupancy bound invariant: `occupants.length ≤ capacity.max`. -/
abbrev OccupancyBound (slot : Slot) : Prop :=
  (slot.tokens.length : Int) ≤ slot.capacity.max

/-- The eligible-for-displacement filter of `findLowestPriorityMovableToken`. -/
def eligibleTokens (slot : Slot) : List Token :=
  slot.tokens.filter
    (fun token => token.movable == true && token.source != TokenSource.EMERGENCY)

/-- One mutator call: `applyAllocationResult` fed by a decision produced by
`allocateTokenToSlot` on the slot's current state, or a `cancelToken` or
`markNoShow` call with an arbitrary identifier. -/
inductive MutStep : Slot → Slot → Prop where
  | applyStep (slot : Slot) (token : Token) :
      MutStep slot (applyAllocationResult slot (allocateTokenToSlot slot token))
  | cancelStep (slot : Slot) (tokenId : String) :
      MutStep slot (cancelToken slot tokenId)
  | noShowStep (slot : Slot) (tokenId : String) :
      MutStep slot (markNoShow slot tokenId)

/-- Like `MutStep`, but every applied decision is for an incoming token whose
identifier is fresh for the slot — the decide-once/apply-once usage of the
engine. -/
inductive FreshStep : Slot → Slot → Prop where
  | applyStep (slot : Slot) (token : Token) (hfresh : token.id ∉ slotIds slot) :
      FreshStep slot (applyAllocationResult slot (allocateTokenToSlot slot token))
  | cancelStep (slot : Slot) (tokenId : String) :
      FreshStep slot (cancelToken slot tokenId)
  | noShowStep (slot : Slot) (tokenId : String) :
      FreshStep slot (markNoShow slot tokenId)

/-! ## Concrete fixtures (mirroring `createTestToken`/`createTestSlot` of the
unit tests) used by witnesses and counterexamples -/

/-- Test-fixture token builder. -/
def mkToken (id source : String) (priority : Int) (movable : Bool) : Token :=
  ⟨id, "patient-1", "test-doctor", "test-slot", source, priority, "CREATED", movable⟩

/-- A slot at its hard max (`max = 3`, `emergencyBuffer = 1`,
`priorityBuffer = 0`) with one EMERGENCY and two PRIORITY occupants: the
emergency buffer is exhausted and general capacity has room, yet no hard
capacity remains. -/
def fullSlot : Slot :=
  ⟨"s1", "doc-A", ⟨3, 1, 0⟩,
    [mkToken "e1" TokenSource.EMERGENCY 100 false,
     mkToken "p1" TokenSource.PRIORITY 60 true,
     mkToken "p2" TokenSource.PRIORITY 60 true], []⟩

/-- An incoming EMERGENCY token. -/
def emergencyTok : Token :=
  mkToken "e9" TokenSource.EMERGENCY 100 true

/-- A slot with hard capacity to spare (`max = 4`) whose emergency buffer
(`1`) is exhausted. -/
def roomSlot : Slot :=
  ⟨"s2", "doc-A", ⟨4, 1, 0⟩, [mkToken "e1" TokenSource.EMERGENCY 100 false], []⟩

/-- The empty five-capacity slot of the in-memory store fixtures. -/
def emptySlot : Slot :=
  ⟨"s0", "doc-A", ⟨5, 1, 1⟩, [], []⟩

/-- An incoming ONLINE token of MEDIUM priority. -/
def onlineTok : Token :=
  mkToken "t0" TokenSource.ONLINE 40 true

/-- The `Allocated` decision `allocateTokenToSlot` produces for `onlineTok`
on `emptySlot`. -/
def allocatedRes : AllocationResult :=
  ⟨AllocationStatus.ALLOCATED, some onlineTok, none,
    some "Slot has available capacity for this token"⟩

/-- A movable low-priority ONLINE occupant. -/
def displacedTok : Token :=
  mkToken "o1" TokenSource.ONLINE 20 true

/-- A full `max = 1` slot holding one movable low-priority ONLINE occupant. -/
def tinySlot : Slot :=
  ⟨"s3", "doc-A", ⟨1, 0, 0⟩, [displacedTok], []⟩

/-- An incoming ONLINE token of HIGH priority. -/
def highTok : Token :=
  mkToken "h1" TokenSource.ONLINE 60 true

/-- A full `max = 1` slot whose only occupant is not movable, so neither
admission nor displacement is possible. -/
def stuckSlot : Slot :=
  ⟨"s5", "doc-A", ⟨1, 0, 0⟩, [mkToken "n1" TokenSource.ONLINE 20 false], []⟩

/-- A token whose source is none of the five known channels. -/
def strangeTok : Token :=
  mkToken "x1" "SOMETHING_ELSE" 60 true

/-- A full `max = 1` slot with one occupant and a two-entry waitlist whose
higher-priority entry comes second. -/
def waitSlot : Slot :=
  ⟨"s4", "doc-A", ⟨1, 0, 0⟩,
    [mkToken "a1" TokenSource.ONLINE 40 true],
    [mkToken "w1" TokenSource.ONLINE 20 true,
     mkToken "w2" TokenSource.ONLINE 80 true]⟩

/-! ## Lemmas about `removeTokenById` -/

lemma tokenIds_cons (t : Token) (l : List Token) :
    tokenIds (t :: l) = t.id :: tokenIds l := rfl

lemma tokenIds_append (l₁ l₂ : List Token) :
    tokenIds (l₁ ++ l₂) = tokenIds l₁ ++ tokenIds l₂ :=
  List.map_append _ _ _

lemma tokenIds_length (l : List Token) : (tokenIds l).length = l.length :=
  List.length_map _ _

/-- When no occupant carries the identifier, `removeTokenById` removes
nothing. -/
lemma removeTokenById_of_not_mem (l : List Token) (i : String)
    (h : i ∉ tokenIds l) : removeTokenById l i = (l, none) := by
  induction l with
  | nil => rfl
  | cons t rest ih =>
    rw [tokenIds_cons, List.mem_cons] at h
    push_neg at h
    have hne : (t.id == i) = false := beq_eq_false_iff_ne.mpr (fun he => h.1 (he ▸ rfl))
    rw [removeTokenById, hne]
    simp only [Bool.false_eq_true, if_false, ih h.2]

/-- When some occupant carries the identifier, `removeTokenById` removes
exactly the first one. -/
lemma removeTokenById_of_mem (l : List Token) (i : String)
    (h : i ∈ tokenIds l) :
    ∃ pre t post, l = pre ++ t :: post ∧ t.id = i ∧ (∀ u ∈ pre, u.id ≠ i) ∧
      removeTokenById l i = (pre ++ post, some t) := by
  induction l with
  | nil => simp [tokenIds] at h
  | cons a rest ih =>
    by_cases ha : a.id = i
    · refine ⟨[], a, rest, rfl, ha, by simp, ?_⟩
      rw [removeTokenById, if_pos (beq_iff_eq.mpr ha)]
      rfl
    · have h' : i ∈ tokenIds rest := by
        rw [tokenIds_cons, List.mem_cons] at h
        exact h.resolve_left (fun he => ha he.symm)
      obtain ⟨pre, t, post, hdec, hid, hpre, hrm⟩ := ih h'
      refine ⟨a :: pre, t, post, by rw [List.cons_append, hdec], hid, ?_, ?_⟩
      · intro u hu
        rcases List.mem_cons.mp hu with hu | hu
        · exact hu ▸ ha
        · exact hpre u hu
      · have hne : (a.id == i) = false := beq_eq_false_iff_ne.mpr ha
        rw [removeTokenById, hne]
        simp only [Bool.false_eq_true, if_false, hrm, List.cons_append]

lemma removeTokenById_fst_length_le (l : List Token) (i : String) :
    (removeTokenById l i).1.length ≤ l.length := by
  induction l with
  | nil => exact Nat.le_refl 0
  | cons t rest ih =>
    rw [removeTokenById]
    by_cases h : (t.id == i) = true
    · rw [if_pos h]
      exact Nat.le_succ_of_le (Nat.le_refl _)
    · rw [if_neg h]
      exact Nat.succ_le_succ ih

/-! ## Lemmas about `pickLowest` and `findLowestPriorityMovableToken` -/

/-- The lowest-priority loop returns the first element achieving the minimum
priority of `bt :: l`. -/
lemma pickLowest_spec (l : List Token) (bt : Token) :
    (pickLowest bt l = bt ∧ ∀ t ∈ l, bt.priority ≤ t.priority) ∨
    (∃ pre t post, l = pre ++ t :: post ∧ pickLowest bt l = t ∧
      t.priority < bt.priority ∧ (∀ u ∈ pre, t.priority < u.priority) ∧
      ∀ u ∈ post, t.priority ≤ u.priority) := by
  induction l generalizing bt with
  | nil => exact Or.inl ⟨rfl, by simp⟩
  | cons a rest ih =>
    have hstep : ∀ c : Token, pickLowest c (a :: rest) =
        pickLowest (if a.priority < c.priority then a else c) rest := fun c => rfl
    by_cases hab : a.priority < bt.priority
    · rcases ih a with ⟨heq, hall⟩ | ⟨pre, t, post, hdec, heq, hlt, hpre, hpost⟩
      · refine Or.inr ⟨[], a, rest, by simp, ?_, hab, by simp, hall⟩
        rw [hstep, if_pos hab, heq]
      · refine Or.inr ⟨a :: pre, t, post, by rw [List.cons_append, hdec], ?_,
          lt_trans hlt hab, ?_, hpost⟩
        · rw [hstep, if_pos hab, heq]
        · intro u hu
          rcases List.mem_cons.mp hu with hu | hu
          · exact hu ▸ hlt
          · exact hpre u hu
    · rcases ih bt with ⟨heq, hall⟩ | ⟨pre, t, post, hdec, heq, hlt, hpre, hpost⟩
      · refine Or.inl ⟨?_, ?_⟩
        · rw [hstep, if_neg hab, heq]
        · intro t ht
          rcases List.mem_cons.mp ht with ht | ht
          · exact ht ▸ le_of_not_lt hab
          · exact hall t ht
      · refine Or.inr ⟨a :: pre, t, post, by rw [List.cons_append, hdec], ?_,
          hlt, ?_, hpost⟩
        · rw [hstep, if_neg hab, heq]
        · intro u hu
          rcases List.mem_cons.mp hu with hu | hu
          · exact hu ▸ lt_of_lt_of_le hlt (le_of_not_lt hab)
          · exact hpre u hu

/-- `findLowestPriorityMovableToken` returns the first eligible occupant
achieving the minimum priority among eligible occupants. -/
lemma findLowest_spec (slot : Slot) (d : Token)
    (h : findLowestPriorityMovableToken slot = some d) :
    ∃ pre post, eligibleTokens slot = pre ++ d :: post ∧
      (∀ u ∈ pre, d.priority < u.priority) ∧ ∀ u ∈ post, d.priority ≤ u.priority := by
  rw [findLowestPriorityMovableToken] at h
  rcases helig : eligibleTokens slot with _ | ⟨first, rest⟩
  · rw [show slot.tokens.filter
        (fun token => token.movable == true && token.source != TokenSource.EMERGENCY)
        = eligibleTokens slot from rfl, helig] at h
    exact absurd h (by simp)
  · rw [show slot.tokens.filter
        (fun token => token.movable == true && token.source != TokenSource.EMERGENCY)
        = eligibleTokens slot from rfl, helig] at h
    simp only [Option.some.injEq] at h
    rcases pickLowest_spec (first :: rest) first with ⟨heq, hall⟩ |
      ⟨pre, t, post, hdec, heq, _, hpre, hpost⟩
    · have hd : d = first := by rw [← h, heq]
      refine ⟨[], rest, ?_, by simp, ?_⟩
      · rw [hd, List.nil_append]
      · intro u hu
        rw [hd]
        exact hall u (List.mem_cons_of_mem first hu)
    · have hd : d = t := by rw [← h, heq]
      refine ⟨pre, post, ?_, ?_, ?_⟩
      · rw [hd]
        exact hdec
      · intro u hu
        rw [hd]
        exact hpre u hu
      · intro u hu
        rw [hd]
        exact hpost u hu

/-- The displaced occupant is a movable, non-emergency occupant of the slot. -/
lemma findLowest_mem (slot : Slot) (d : Token)
    (h : findLowestPriorityMovableToken slot = some d) :
    d ∈ slot.tokens ∧ d.movable = true ∧ d.source ≠ TokenSource.EMERGENCY := by
  obtain ⟨pre, post, hdec, -, -⟩ := findLowest_spec slot d h
  have hmem : d ∈ eligibleTokens slot := by
    rw [hdec]
    exact List.mem_append_right pre (List.mem_cons_self d post)
  rw [eligibleTokens, List.mem_filter] at hmem
  refine ⟨hmem.1, ?_, ?_⟩
  · have := hmem.2
    simp only [Bool.and_eq_true, beq_iff_eq] at this
    exact this.1
  · have := hmem.2
    simp only [Bool.and_eq_true, bne_iff_ne, ne_eq] at this
    exact this.2

/-! ## Lemmas about `findHighestPriorityIndex` and `promoteFromWaitlist` -/

/-- The highest-priority loop keeps the earliest maximum: starting from best
`(b, bt)` at next index `i`, it ends on `(b, bt)` if nothing in `l` strictly
exceeds `bt`, and otherwise on the first entry of `l` strictly exceeding both
`bt` and everything before it. -/
lemma pickHighestIdx_spec (l : List Token) (b : Nat) (bt : Token) (i : Nat) :
    ((pickHighestIdx (b, bt, i) l).1 = b ∧ (pickHighestIdx (b, bt, i) l).2.1 = bt ∧
      ∀ t ∈ l, t.priority ≤ bt.priority) ∨
    (∃ pre t post, l = pre ++ t :: post ∧
      (pickHighestIdx (b, bt, i) l).1 = i + pre.length ∧
      (pickHighestIdx (b, bt, i) l).2.1 = t ∧
      bt.priority < t.priority ∧ (∀ u ∈ pre, u.priority < t.priority) ∧
      ∀ u ∈ post, u.priority ≤ t.priority) := by
  induction l generalizing b bt i with
  | nil => exact Or.inl ⟨rfl, rfl, by simp⟩
  | cons a rest ih =>
    have hstep : pickHighestIdx (b, bt, i) (a :: rest) =
        pickHighestIdx (if bt.priority < a.priority then (i, a, i + 1)
          else (b, bt, i + 1)) rest := rfl
    by_cases hab : bt.priority < a.priority
    · rw [hstep, if_pos hab]
      rcases ih i a (i + 1) with ⟨h1, h2, hall⟩ |
        ⟨pre, t, post, hdec, h1, h2, hgt, hpre, hpost⟩
      · refine Or.inr ⟨[], a, rest, rfl, ?_, h2, hab, by simp, hall⟩
        rw [h1]
        simp
      · refine Or.inr ⟨a :: pre, t, post, by rw [List.cons_append, hdec], ?_, h2,
          lt_trans hab hgt, ?_, hpost⟩
        · rw [h1]
          simp only [List.length_cons]
          omega
        · intro u hu
          rcases List.mem_cons.mp hu with hu | hu
          · exact hu ▸ hgt
          · exact hpre u hu
    · rw [hstep, if_neg hab]
      rcases ih b bt (i + 1) with ⟨h1, h2, hall⟩ |
        ⟨pre, t, post, hdec, h1, h2, hgt, hpre, hpost⟩
      · refine Or.inl ⟨h1, h2, ?_⟩
        intro t ht
        rcases List.mem_cons.mp ht with ht | ht
        · exact ht ▸ le_of_not_lt hab
        · exact hall t ht
      · refine Or.inr ⟨a :: pre, t, post, by rw [List.cons_append, hdec], ?_, h2,
          hgt, ?_, hpost⟩
        · rw [h1]
          simp only [List.length_cons]
          omega
        · intro u hu
          rcases List.mem_cons.mp hu with hu | hu
          · exact hu ▸ lt_of_le_of_lt (le_of_not_lt hab) hgt
          · exact hpre u hu

/-- `findHighestPriorityIndex` returns the index of the first waitlist entry
achieving the maximum priority. -/
lemma findHighestPriorityIndex_spec (w : List Token) (hw : w ≠ []) :
    ∃ pre p post, w = pre ++ p :: post ∧
      findHighestPriorityIndex w = some pre.length ∧
      (∀ u ∈ pre, u.priority < p.priority) ∧ ∀ u ∈ post, u.priority ≤ p.priority := by
  rcases w with _ | ⟨first, rest⟩
  · exact absurd rfl hw
  · rw [findHighestPriorityIndex]
    rcases pickHighestIdx_spec rest 0 first 1 with ⟨h1, -, hall⟩ |
      ⟨pre, t, post, hdec, h1, -, hgt, hpre, hpost⟩
    · exact ⟨[], first, rest, rfl, by simp [h1], by simp, hall⟩
    · refine ⟨first :: pre, t, post, by rw [List.cons_append, hdec], ?_, ?_, hpost⟩
      · rw [h1]
        simp only [List.length_cons]
        congr 1
        omega
      · intro u hu
        rcases List.mem_cons.mp hu with hu | hu
        · exact hu ▸ hgt
        · exact hpre u hu

lemma getElem?_append_cons (pre : List Token) (p : Token) (post : List Token) :
    (pre ++ p :: post)[pre.length]? = some p := by
  induction pre with
  | nil => simp
  | cons a pre ih => simpa using ih

lemma eraseIdx_append_cons (pre : List Token) (p : Token) (post : List Token) :
    (pre ++ p :: post).eraseIdx pre.length = pre ++ post := by
  induction pre with
  | nil => rfl
  | cons a pre ih =>
    simp only [List.cons_append, List.length_cons, List.eraseIdx_cons_succ]
    rw [ih]

/-- `promoteFromWaitlist` on an empty waitlist is a no-op. -/
lemma promoteFromWaitlist_nil (slot : Slot) (hw : slot.waitlist = []) :
    promoteFromWaitlist slot = slot := by
  rw [promoteFromWaitlist, hw]
  rfl

/-- `promoteFromWaitlist` on a non-empty waitlist appends the first
maximum-priority waitlist entry to the occupants and deletes it from the
waitlist. -/
lemma promoteFromWaitlist_spec (slot : Slot) (hw : slot.waitlist ≠ []) :
    ∃ pre p post, slot.waitlist = pre ++ p :: post ∧
      (∀ u ∈ pre, u.priority < p.priority) ∧ (∀ u ∈ post, u.priority ≤ p.priority) ∧
      promoteFromWaitlist slot = Slot.mk slot.id slot.doctorId slot.capacity
        (slot.tokens ++ [p]) (pre ++ post) := by
  obtain ⟨pre, p, post, hdec, hidx, hpre, hpost⟩ := findHighestPriorityIndex_spec _ hw
  refine ⟨pre, p, post, hdec, hpre, hpost, ?_⟩
  rw [promoteFromWaitlist, hidx, hdec]
  simp only [getElem?_append_cons, eraseIdx_append_cons]

/-! ## Case analysis of `applyAllocationResult ∘ allocateTokenToSlot` -/

/-- The four shapes an apply-after-decide step can take. -/
lemma applyDecide_cases (slot : Slot) (token : Token) :
    (canAllocateToken slot token = true ∧
      applyAllocationResult slot (allocateTokenToSlot slot token) =
        Slot.mk slot.id slot.doctorId slot.capacity (slot.tokens ++ [token])
          slot.waitlist) ∨
    (∃ d, findLowestPriorityMovableToken slot = some d ∧
      d.priority < token.priority ∧
      applyAllocationResult slot (allocateTokenToSlot slot token) =
        Slot.mk slot.id slot.doctorId slot.capacity
          ((removeTokenById slot.tokens d.id).1 ++ [token])
          (slot.waitlist ++ [d])) ∨
    (applyAllocationResult slot (allocateTokenToSlot slot token) =
      Slot.mk slot.id slot.doctorId slot.capacity slot.tokens
        (slot.waitlist ++ [token])) ∨
    (applyAllocationResult slot (allocateTokenToSlot slot token) = slot) := by
  by_cases hca : canAllocateToken slot token
  · refine Or.inl ⟨hca, ?_⟩
    rw [allocateTokenToSlot, if_pos hca]
    rfl
  · rw [allocateTokenToSlot, if_neg hca]
    rcases hfl : findLowestPriorityMovableToken slot with _ | d
    all_goals dsimp only
    · by_cases hmed : PriorityLevel.MEDIUM ≤ token.priority
      · rw [if_pos hmed]
        exact Or.inr (Or.inr (Or.inl rfl))
      · rw [if_neg hmed]
        exact Or.inr (Or.inr (Or.inr rfl))
    · by_cases hdp : d.priority < token.priority
      · rw [if_pos hdp]
        exact Or.inr (Or.inl ⟨d, rfl, hdp, rfl⟩)
      · rw [if_neg hdp]
        by_cases hmed : PriorityLevel.MEDIUM ≤ token.priority
        · rw [if_pos hmed]
          exact Or.inr (Or.inr (Or.inl rfl))
        · rw [if_neg hmed]
          exact Or.inr (Or.inr (Or.inr rfl))

/-! ## Generic no-duplication glue on identifier lists -/

lemma nodup_snoc_left {A B : List String} {x : String}
    (h : (A ++ B).Nodup) (hx : x ∉ A ++ B) : ((A ++ [x]) ++ B).Nodup := by
  have hperm : ((A ++ [x]) ++ B).Perm (x :: (A ++ B)) :=
    (List.perm_append_singleton x A).append_right B
  exact hperm.symm.nodup (List.nodup_cons.mpr ⟨hx, h⟩)

lemma nodup_snoc_right {A B : List String} {x : String}
    (h : (A ++ B).Nodup) (hx : x ∉ A ++ B) : (A ++ (B ++ [x])).Nodup := by
  have hperm : (A ++ (B ++ [x])).Perm (x :: (A ++ B)) := by
    rw [← List.append_assoc]
    exact List.perm_append_singleton x (A ++ B)
  exact hperm.symm.nodup (List.nodup_cons.mpr ⟨hx, h⟩)

/-- Moving one element `y` out of the left part and appending it to the right
part, while snocing a fresh `x` onto the left part, keeps the identifier list
duplicate-free. -/
lemma nodup_displace {A B E : List String} {x y : String}
    (hAE : A.Perm (y :: E)) (h : (A ++ B).Nodup) (hx : x ∉ A ++ B) :
    ((E ++ [x]) ++ (B ++ [y])).Nodup := by
  have hyEB : (y :: (E ++ B)).Nodup := by
    have hp : (A ++ B).Perm (y :: (E ++ B)) := hAE.append_right B
    exact hp.nodup h
  have hy : y ∉ E ++ B := (List.nodup_cons.mp hyEB).1
  have hEB : (E ++ B).Nodup := (List.nodup_cons.mp hyEB).2
  have hx' : x ∉ y :: (E ++ B) := by
    intro hmem
    exact hx (((hAE.append_right B).mem_iff).mpr hmem)
  have hperm : ((E ++ [x]) ++ (B ++ [y])).Perm (x :: y :: (E ++ B)) := by
    rw [List.append_assoc, List.singleton_append]
    refine List.Perm.trans List.perm_middle ?_
    refine List.Perm.cons x ?_
    rw [← List.append_assoc]
    exact List.perm_append_singleton y (E ++ B)
  exact hperm.symm.nodup
    (List.nodup_cons.mpr ⟨hx', List.nodup_cons.mpr ⟨hy, hEB⟩⟩)

/-- Moving one element `y` out of the right part and snocing it onto the left
part keeps the identifier list duplicate-free. -/
lemma nodup_promote {E B F : List String} {y : String}
    (hBF : B.Perm (y :: F)) (h : (E ++ B).Nodup) : ((E ++ [y]) ++ F).Nodup := by
  have hnodup : (y :: (E ++ F)).Nodup := by
    have hperm : (E ++ B).Perm (y :: (E ++ F)) :=
      (hBF.append_left E).trans List.perm_middle
    exact hperm.nodup h
  have hperm2 : ((E ++ [y]) ++ F).Perm (y :: (E ++ F)) := by
    rw [List.append_assoc, List.singleton_append]
    exact List.perm_middle
  exact hperm2.symm.nodup hnodup

/-! ## Shape lemmas for `cancelToken` -/

/-- Cancelling an identifier that no occupant carries is a complete no-op. -/
lemma cancelToken_not_mem (slot : Slot) (tokenId : String)
    (h : tokenId ∉ tokenIds slot.tokens) : cancelToken slot tokenId = slot := by
  rw [cancelToken, removeTokenById_of_not_mem _ _ h]

/-- Cancelling an identifier some occupant carries removes its first carrier
and then promotes from the waitlist. -/
lemma cancelToken_mem (slot : Slot) (tokenId : String)
    (h : tokenId ∈ tokenIds slot.tokens) :
    ∃ pre t post, slot.tokens = pre ++ t :: post ∧ t.id = tokenId ∧
      (∀ u ∈ pre, u.id ≠ tokenId) ∧
      cancelToken slot tokenId = promoteFromWaitlist
        (Slot.mk slot.id slot.doctorId slot.capacity (pre ++ post) slot.waitlist) := by
  obtain ⟨pre, t, post, hdec, hid, hpre, hrm⟩ := removeTokenById_of_mem _ _ h
  exact ⟨pre, t, post, hdec, hid, hpre, by rw [cancelToken, hrm]⟩

/-! ## Preservation of the occupancy bound -/

/-- A successful admission implies spare hard capacity beforehand. -/
lemma canAllocate_hard (slot : Slot) (token : Token)
    (h : canAllocateToken slot token = true) :
    (slot.tokens.length : Int) < slot.capacity.max := by
  by_cases hh : hasHardCapacity slot = true
  · rw [hasHardCapacity, decide_eq_true_eq] at hh
    exact hh
  · rw [canAllocateToken] at h
    rw [Bool.not_eq_true] at hh
    rw [hh] at h
    simp at h

lemma occupancyBound_applyDecide (slot : Slot) (token : Token)
    (h : OccupancyBound slot) :
    OccupancyBound (applyAllocationResult slot (allocateTokenToSlot slot token)) := by
  have hb : (slot.tokens.length : Int) ≤ slot.capacity.max := h
  rcases applyDecide_cases slot token with ⟨hca, heq⟩ | ⟨d, hfl, -, heq⟩ | heq | heq
  · rw [heq]
    have hlt := canAllocate_hard slot token hca
    show ((slot.tokens ++ [token]).length : Int) ≤ slot.capacity.max
    rw [List.length_append]
    simp only [List.length_singleton]
    push_cast
    omega
  · rw [heq]
    obtain ⟨hd, -, -⟩ := findLowest_mem slot d hfl
    have hmem : d.id ∈ tokenIds slot.tokens := List.mem_map_of_mem Token.id hd
    obtain ⟨pre, t, post, hdec, -, -, hrm⟩ := removeTokenById_of_mem _ _ hmem
    have hfst : (removeTokenById slot.tokens d.id).1 = pre ++ post := by rw [hrm]
    show (((removeTokenById slot.tokens d.id).1 ++ [token]).length : Int) ≤
      slot.capacity.max
    rw [hfst]
    rw [hdec] at hb
    simp only [List.length_append, List.length_cons, List.length_singleton,
      List.length_nil] at hb ⊢
    push_cast at hb ⊢
    omega
  · rw [heq]
    exact h
  · rw [heq]
    exact h

lemma occupancyBound_cancel (slot : Slot) (tokenId : String)
    (h : OccupancyBound slot) : OccupancyBound (cancelToken slot tokenId) := by
  have hb : (slot.tokens.length : Int) ≤ slot.capacity.max := h
  by_cases hmem : tokenId ∈ tokenIds slot.tokens
  · obtain ⟨pre, t, post, hdec, -, -, hceq⟩ := cancelToken_mem slot tokenId hmem
    rw [hceq]
    by_cases hw : slot.waitlist = []
    · rw [promoteFromWaitlist_nil _ (by exact hw)]
      show ((pre ++ post).length : Int) ≤ slot.capacity.max
      rw [hdec] at hb
      simp only [List.length_append, List.length_cons, List.length_nil] at hb ⊢
      push_cast at hb ⊢
      omega
    · obtain ⟨wpre, p, wpost, -, -, -, hpeq⟩ := promoteFromWaitlist_spec
        (Slot.mk slot.id slot.doctorId slot.capacity (pre ++ post) slot.waitlist)
        (by exact hw)
      rw [hpeq]
      show (((pre ++ post) ++ [p]).length : Int) ≤ slot.capacity.max
      rw [hdec] at hb
      simp only [List.length_append, List.length_cons, List.length_singleton,
        List.length_nil] at hb ⊢
      push_cast at hb ⊢
      omega
  · rw [cancelToken_not_mem slot tokenId hmem]
    exact h

/-! ## Preservation of the no-duplication invariant -/

lemma nodupIds_applyDecide (slot : Slot) (token : Token)
    (hfresh : token.id ∉ slotIds slot) (h : NoDupIds slot) :
    NoDupIds (applyAllocationResult slot (allocateTokenToSlot slot token)) := by
  have hfresh' : token.id ∉ tokenIds slot.tokens ++ tokenIds slot.waitlist := hfresh
  have h' : (tokenIds slot.tokens ++ tokenIds slot.waitlist).Nodup := h
  rcases applyDecide_cases slot token with ⟨-, heq⟩ | ⟨d, hfl, -, heq⟩ | heq | heq
  · rw [heq]
    show (tokenIds (slot.tokens ++ [token]) ++ tokenIds slot.waitlist).Nodup
    rw [tokenIds_append]
    exact nodup_snoc_left h' hfresh'
  · obtain ⟨hd, -, -⟩ := findLowest_mem slot d hfl
    have hmem : d.id ∈ tokenIds slot.tokens := List.mem_map_of_mem Token.id hd
    obtain ⟨pre, t, post, hdec, hid, -, hrm⟩ := removeTokenById_of_mem _ _ hmem
    have hAE : (tokenIds slot.tokens).Perm (d.id :: tokenIds (pre ++ post)) := by
      rw [hdec, tokenIds_append, tokenIds_cons, tokenIds_append, ← hid]
      exact List.perm_middle
    rw [heq]
    show (tokenIds ((removeTokenById slot.tokens d.id).1 ++ [token]) ++
      tokenIds (slot.waitlist ++ [d])).Nodup
    rw [hrm]
    show (tokenIds ((pre ++ post) ++ [token]) ++ tokenIds (slot.waitlist ++ [d])).Nodup
    have e1 : tokenIds ((pre ++ post) ++ [token]) = tokenIds (pre ++ post) ++ [token.id] := by
      rw [tokenIds_append]
      rfl
    have e2 : tokenIds (slot.waitlist ++ [d]) = tokenIds slot.waitlist ++ [d.id] := by
      rw [tokenIds_append]
      rfl
    rw [e1, e2]
    exact nodup_displace hAE h' hfresh'
  · rw [heq]
    show (tokenIds slot.tokens ++ tokenIds (slot.waitlist ++ [token])).Nodup
    rw [tokenIds_append]
    exact nodup_snoc_right h' hfresh'
  · rw [heq]
    exact h

lemma nodupIds_cancel (slot : Slot) (tokenId : String)
    (h : NoDupIds slot) : NoDupIds (cancelToken slot tokenId) := by
  have h' : (tokenIds slot.tokens ++ tokenIds slot.waitlist).Nodup := h
  by_cases hmem : tokenId ∈ tokenIds slot.tokens
  · obtain ⟨pre, t, post, hdec, hid, -, hceq⟩ := cancelToken_mem slot tokenId hmem
    have hAE : (tokenIds slot.tokens).Perm (tokenId :: tokenIds (pre ++ post)) := by
      rw [hdec, tokenIds_append, tokenIds_cons, tokenIds_append, ← hid]
      exact List.perm_middle
    have hEB : (tokenIds (pre ++ post) ++ tokenIds slot.waitlist).Nodup := by
      have hcons : (tokenId :: (tokenIds (pre ++ post) ++ tokenIds slot.waitlist)).Nodup :=
        (hAE.append_right (tokenIds slot.waitlist)).nodup h'
      exact (List.nodup_cons.mp hcons).2
    rw [hceq]
    by_cases hw : slot.waitlist = []
    · rw [promoteFromWaitlist_nil _ (by exact hw)]
      show (tokenIds (pre ++ post) ++ tokenIds slot.waitlist).Nodup
      exact hEB
    · obtain ⟨wpre, p, wpost, hwdec, -, -, hpeq⟩ := promoteFromWaitlist_spec
        (Slot.mk slot.id slot.doctorId slot.capacity (pre ++ post) slot.waitlist)
        (by exact hw)
      have hBF : (tokenIds slot.waitlist).Perm
          (p.id :: (tokenIds wpre ++ tokenIds wpost)) := by
        have hwdec' : slot.waitlist = wpre ++ p :: wpost := hwdec
        rw [hwdec', tokenIds_append, tokenIds_cons]
        exact List.perm_middle
      rw [hpeq]
      show (tokenIds ((pre ++ post) ++ [p]) ++ tokenIds (wpre ++ wpost)).Nodup
      have e1 : tokenIds ((pre ++ post) ++ [p]) = tokenIds (pre ++ post) ++ [p.id] := by
        rw [tokenIds_append]
        rfl
      have e2 : tokenIds (wpre ++ wpost) = tokenIds wpre ++ tokenIds wpost :=
        tokenIds_append _ _
      rw [e1, e2]
      exact nodup_promote hBF hEB
  · rw [cancelToken_not_mem slot tokenId hmem]
    exact h

/-! ## Claim theorems -/

/-- C1 (counterexample): an EMERGENCY token whose buffer is exhausted while
`generalCount < generalCapacity` is still refused when the slot has no hard
capacity left, so the claimed implication fails without a hard-capacity
hypothesis. -/
theorem C1_counterexample :
    emergencyTok.source = TokenSource.EMERGENCY ∧
    fullSlot.capacity.emergencyBuffer ≤ (getEmergencyCount fullSlot : Int) ∧
    (getGeneralCount fullSlot : Int) <
      fullSlot.capacity.max - fullSlot.capacity.emergencyBuffer -
        fullSlot.capacity.priorityBuffer ∧
    canAllocateToken fullSlot emergencyTok = false := by
  decide

/-- C1 (amended): for an emergency- or priority-class token, if the slot
still has hard capacity and the class's own buffer is exhausted but
`generalCount < generalCapacity`, then `canAllocateToken` returns true. -/
theorem C1_overflow_admission (slot : Slot) (token : Token)
    (hhard : hasHardCapacity slot = true)
    (hclass :
      (token.source = TokenSource.EMERGENCY ∧
        slot.capacity.emergencyBuffer ≤ (getEmergencyCount slot : Int)) ∨
      ((token.source = TokenSource.PRIORITY ∨ token.source = TokenSource.FOLLOW_UP) ∧
        slot.capacity.priorityBuffer ≤ (getPriorityCount slot : Int)))
    (hgen : (getGeneralCount slot : Int) <
      slot.capacity.max - slot.capacity.emergencyBuffer - slot.capacity.priorityBuffer) :
    canAllocateToken slot token = true := by
  have hgen' : (getGeneralCount slot : Int) <
      slot.capacity.max -
        (slot.capacity.emergencyBuffer + slot.capacity.priorityBuffer) := by
    omega
  rcases hclass with ⟨hsrc, -⟩ | ⟨hsrc, -⟩
  · rw [canAllocateToken, hhard, hsrc]
    simp [TokenSource.EMERGENCY, hgen']
  · rcases hsrc with hsrc | hsrc <;>
      rw [canAllocateToken, hhard, hsrc] <;>
      simp [TokenSource.PRIORITY, TokenSource.FOLLOW_UP, TokenSource.EMERGENCY, hgen']

/-- C1 (witness): a slot with spare hard capacity, exhausted emergency
buffer, and free general capacity admits an EMERGENCY token. -/
theorem C1_overflow_admission_witness :
    hasHardCapacity roomSlot = true ∧
    roomSlot.capacity.emergencyBuffer ≤ (getEmergencyCount roomSlot : Int) ∧
    (getGeneralCount roomSlot : Int) < roomSlot.capacity.max -
      roomSlot.capacity.emergencyBuffer - roomSlot.capacity.priorityBuffer ∧
    canAllocateToken roomSlot emergencyTok = true :=
  ⟨by decide, by decide, by decide,
    C1_overflow_admission roomSlot emergencyTok (by decide)
      (Or.inl ⟨rfl, by decide⟩) (by decide)⟩

/-- C2 (counterexample): applying the same `Allocated` decision twice — an
arbitrary-decision sequence the claim quantifies over — duplicates the
token's identifier, so the invariant does not survive arbitrary
`AllocationResult` arguments. -/
theorem C2_counterexample :
    NoDupIds emptySlot ∧
    allocateTokenToSlot emptySlot onlineTok = allocatedRes ∧
    ¬ NoDupIds (applyAllocationResult (applyAllocationResult emptySlot allocatedRes)
      allocatedRes) := by
  decide

/-- C2 (amended): starting from a slot whose occupants and waitlist carry no
duplicate identifiers, any sequence of `cancelToken`/`markNoShow` calls and
of `applyAllocationResult` calls fed by a decision of `allocateTokenToSlot`
on the current state for a fresh incoming identifier preserves the
no-duplicate-identifier invariant. -/
theorem C2_noDup_invariant (s s' : Slot) (hinit : NoDupIds s)
    (hsteps : Relation.ReflTransGen FreshStep s s') : NoDupIds s' := by
  induction hsteps with
  | refl => exact hinit
  | tail _ hstep ih =>
    cases hstep with
    | applyStep token hfresh => exact nodupIds_applyDecide _ token hfresh ih
    | cancelStep tokenId => exact nodupIds_cancel _ tokenId ih
    | noShowStep tokenId => exact nodupIds_cancel _ tokenId ih

/-- C2 (witness): one cancellation step on a duplicate-free slot keeps it
duplicate-free. -/
theorem C2_noDup_invariant_witness :
    NoDupIds waitSlot ∧ NoDupIds (cancelToken waitSlot "a1") :=
  ⟨by decide,
    C2_noDup_invariant waitSlot (cancelToken waitSlot "a1") (by decide)
      (Relation.ReflTransGen.single (FreshStep.cancelStep waitSlot "a1"))⟩

/-- C3: a `DISPLACED` decision displaces a movable, non-emergency occupant
of minimum priority among eligible occupants (earliest on ties), and the
incoming token's priority strictly exceeds it. -/
theorem C3_displacement_safety (slot : Slot) (token : Token) (d : Token)
    (hres : (allocateTokenToSlot slot token).status = AllocationStatus.DISPLACED)
    (hd : (allocateTokenToSlot slot token).displacedToken = some d) :
    d ∈ slot.tokens ∧ d.movable = true ∧ d.source ≠ TokenSource.EMERGENCY ∧
    d.priority < token.priority ∧
    (∀ u ∈ eligibleTokens slot, d.priority ≤ u.priority) ∧
    ∃ pre post, eligibleTokens slot = pre ++ d :: post ∧
      (∀ u ∈ pre, d.priority < u.priority) ∧ ∀ u ∈ post, d.priority ≤ u.priority := by
  have hkey : findLowestPriorityMovableToken slot = some d ∧
      d.priority < token.priority := by
    rw [allocateTokenToSlot] at hres hd
    by_cases hca : canAllocateToken slot token = true
    · rw [if_pos hca] at hres
      exact absurd hres (by simp)
    · rw [if_neg hca] at hres hd
      rcases hfl : findLowestPriorityMovableToken slot with _ | d0
      · rw [hfl] at hres
        dsimp only at hres
        by_cases hmed : PriorityLevel.MEDIUM ≤ token.priority
        · rw [if_pos hmed] at hres
          exact absurd hres (by simp)
        · rw [if_neg hmed] at hres
          exact absurd hres (by simp)
      · rw [hfl] at hres hd
        dsimp only at hres hd
        by_cases hdp : d0.priority < token.priority
        · rw [if_pos hdp] at hd
          simp only [Option.some.injEq] at hd
          exact ⟨by rw [hd], hd ▸ hdp⟩
        · rw [if_neg hdp] at hres
          by_cases hmed : PriorityLevel.MEDIUM ≤ token.priority
          · rw [if_pos hmed] at hres
            exact absurd hres (by simp)
          · rw [if_neg hmed] at hres
            exact absurd hres (by simp)
  obtain ⟨hfl, hlt⟩ := hkey
  obtain ⟨hmem, hmov, hsrc⟩ := findLowest_mem slot d hfl
  obtain ⟨pre, post, hdec, hpre, hpost⟩ := findLowest_spec slot d hfl
  refine ⟨hmem, hmov, hsrc, hlt, ?_, pre, post, hdec, hpre, hpost⟩
  intro u hu
  rw [hdec] at hu
  rcases List.mem_append.mp hu with hu | hu
  · exact le_of_lt (hpre u hu)
  · rcases List.mem_cons.mp hu with hu | hu
    · exact hu ▸ le_refl _
    · exact hpost u hu

/-- C3 (witness): a HIGH-priority ONLINE token displaces the movable
LOW-priority occupant of a full one-seat slot. -/
theorem C3_displacement_safety_witness :
    (allocateTokenToSlot tinySlot highTok).status = AllocationStatus.DISPLACED ∧
    (allocateTokenToSlot tinySlot highTok).displacedToken = some displacedTok ∧
    displacedTok ∈ tinySlot.tokens ∧ displacedTok.priority < highTok.priority :=
  ⟨by decide, by decide,
    (C3_displacement_safety tinySlot highTok displacedTok (by decide) (by decide)).1,
    (C3_displacement_safety tinySlot highTok displacedTok (by decide)
      (by decide)).2.2.2.1⟩

/-- C4: `occupants.length ≤ capacity.max` is preserved by any sequence of
apply-after-decide, `cancelToken`, and `markNoShow` calls. -/
theorem C4_occupancy_bound (s s' : Slot) (hinit : OccupancyBound s)
    (hsteps : Relation.ReflTransGen MutStep s s') : OccupancyBound s' := by
  induction hsteps with
  | refl => exact hinit
  | tail _ hstep ih =>
    cases hstep with
    | applyStep token => exact occupancyBound_applyDecide _ token ih
    | cancelStep tokenId => exact occupancyBound_cancel _ tokenId ih
    | noShowStep tokenId => exact occupancyBound_cancel _ tokenId ih

/-- C4 (witness): one apply-after-decide step on the empty store slot keeps
the occupancy bound. -/
theorem C4_occupancy_bound_witness :
    OccupancyBound emptySlot ∧
    OccupancyBound
      (applyAllocationResult emptySlot (allocateTokenToSlot emptySlot onlineTok)) :=
  ⟨by decide,
    C4_occupancy_bound emptySlot
      (applyAllocationResult emptySlot (allocateTokenToSlot emptySlot onlineTok))
      (by decide)
      (Relation.ReflTransGen.single (MutStep.applyStep emptySlot onlineTok))⟩

/-- C5: a general (ONLINE/WALK_IN) token is admitted exactly when the slot
has hard capacity and the general count is below the general capacity
clamped at zero; over-subscribed buffers therefore yield zero capacity, not
an error. -/
theorem C5_general_admission (slot : Slot) (token : Token)
    (hsrc : token.source = TokenSource.ONLINE ∨ token.source = TokenSource.WALK_IN) :
    canAllocateToken slot token = true ↔
      ((getTotalAllocated slot : Int) < slot.capacity.max ∧
        (getGeneralCount slot : Int) <
          max 0 (slot.capacity.max - slot.capacity.emergencyBuffer -
            slot.capacity.priorityBuffer)) := by
  rcases hsrc with hsrc | hsrc <;>
  · rw [canAllocateToken, hsrc]
    simp only [TokenSource.ONLINE, TokenSource.WALK_IN, TokenSource.PRIORITY,
      TokenSource.FOLLOW_UP, TokenSource.EMERGENCY]
    simp
    rw [hasHardCapacity, decide_eq_true_eq]
    constructor
    · rintro ⟨h1, h2⟩
      exact ⟨h1, Or.inr (by omega)⟩
    · rintro ⟨h1, h2⟩
      refine ⟨h1, ?_⟩
      rcases h2 with h2 | h2 <;> omega

/-- C5 (witness): the empty store slot admits an ONLINE token, matching the
clamped general-capacity condition. -/
theorem C5_general_admission_witness :
    (onlineTok.source = TokenSource.ONLINE ∨ onlineTok.source = TokenSource.WALK_IN) ∧
    (canAllocateToken emptySlot onlineTok = true ↔
      ((getTotalAllocated emptySlot : Int) < emptySlot.capacity.max ∧
        (getGeneralCount emptySlot : Int) <
          max 0 (emptySlot.capacity.max - emptySlot.capacity.emergencyBuffer -
            emptySlot.capacity.priorityBuffer))) :=
  ⟨Or.inl rfl, C5_general_admission emptySlot onlineTok (Or.inl rfl)⟩

/-- C6 (counterexample): a token with an unknown source can still obtain a
`DISPLACED` decision, so "never Allocated or Displaced" fails. -/
theorem C6_counterexample :
    strangeTok.source ∉ knownSources ∧
    (allocateTokenToSlot tinySlot strangeTok).status = AllocationStatus.DISPLACED := by
  decide

/-- C6 (amended): for a token whose source is none of the five known
channels, `canAllocateToken` returns false and `allocateTokenToSlot` never
returns `ALLOCATED` (it may return `DISPLACED`, `WAITLISTED`, or
`REJECTED`). -/
theorem C6_unknown_source (slot : Slot) (token : Token)
    (hsrc : token.source ∉ knownSources) :
    canAllocateToken slot token = false ∧
    (allocateTokenToSlot slot token).status ≠ AllocationStatus.ALLOCATED := by
  simp only [knownSources, List.mem_cons, List.not_mem_nil, or_false, not_or] at hsrc
  obtain ⟨h1, h2, h3, h4, h5⟩ := hsrc
  have e1 : (token.source == TokenSource.EMERGENCY) = false :=
    beq_eq_false_iff_ne.mpr h5
  have e2 : (token.source == TokenSource.PRIORITY || token.source == TokenSource.FOLLOW_UP)
      = false := by
    rw [Bool.or_eq_false_iff]
    exact ⟨beq_eq_false_iff_ne.mpr h3, beq_eq_false_iff_ne.mpr h4⟩
  have e3 : (token.source == TokenSource.ONLINE || token.source == TokenSource.WALK_IN)
      = false := by
    rw [Bool.or_eq_false_iff]
    exact ⟨beq_eq_false_iff_ne.mpr h1, beq_eq_false_iff_ne.mpr h2⟩
  have hca : canAllocateToken slot token = false := by
    rw [canAllocateToken]
    simp only [e1, e2, e3, Bool.false_eq_true, if_false]
    split
    · rfl
    · rfl
  refine ⟨hca, ?_⟩
  rw [allocateTokenToSlot, if_neg (by simp [hca])]
  rcases findLowestPriorityMovableToken slot with _ | d
  · dsimp only
    split
    · simp
    · simp
  · dsimp only
    split
    · simp
    · split
      · simp
      · simp

/-- C6 (witness): a token with source "SOMETHING_ELSE" is inadmissible and
never receives an `ALLOCATED` decision. -/
theorem C6_unknown_source_witness :
    strangeTok.source ∉ knownSources ∧
    canAllocateToken emptySlot strangeTok = false ∧
    (allocateTokenToSlot emptySlot strangeTok).status ≠ AllocationStatus.ALLOCATED :=
  ⟨by decide, (C6_unknown_source emptySlot strangeTok (by decide)).1,
    (C6_unknown_source emptySlot strangeTok (by decide)).2⟩

/-- C7: cancelling an occupant of a slot with a non-empty waitlist promotes
the first maximum-priority waitlist entry into the occupants and removes it
from the waitlist; `markNoShow` behaves identically. -/
theorem C7_promotion_correctness (slot : Slot) (tokenId : String)
    (hocc : tokenId ∈ tokenIds slot.tokens) (hw : slot.waitlist ≠ []) :
    ∃ pre p post, slot.waitlist = pre ++ p :: post ∧
      (∀ u ∈ pre, u.priority < p.priority) ∧ (∀ u ∈ post, u.priority ≤ p.priority) ∧
      (cancelToken slot tokenId).tokens =
        (removeTokenById slot.tokens tokenId).1 ++ [p] ∧
      (cancelToken slot tokenId).waitlist = pre ++ post ∧
      markNoShow slot tokenId = cancelToken slot tokenId := by
  obtain ⟨tpre, t, tpost, htdec, htid, htpre, hrm⟩ := removeTokenById_of_mem _ _ hocc
  have hceq : cancelToken slot tokenId = promoteFromWaitlist
      (Slot.mk slot.id slot.doctorId slot.capacity (tpre ++ tpost) slot.waitlist) := by
    rw [cancelToken, hrm]
  obtain ⟨wpre, p, wpost, hwdec, hpre, hpost, hpeq⟩ := promoteFromWaitlist_spec
    (Slot.mk slot.id slot.doctorId slot.capacity (tpre ++ tpost) slot.waitlist)
    (by exact hw)
  have hwdec' : slot.waitlist = wpre ++ p :: wpost := hwdec
  refine ⟨wpre, p, wpost, hwdec', hpre, hpost, ?_, ?_, rfl⟩
  · rw [hceq, hpeq, hrm]
  · rw [hceq, hpeq]

/-- C7 (witness): cancelling the sole occupant of `waitSlot` promotes the
priority-80 entry and leaves the priority-20 entry waitlisted. -/
theorem C7_promotion_correctness_witness :
    "a1" ∈ tokenIds waitSlot.tokens ∧ waitSlot.waitlist ≠ [] ∧
    ∃ pre p post, waitSlot.waitlist = pre ++ p :: post ∧
      (∀ u ∈ pre, u.priority < p.priority) ∧ (∀ u ∈ post, u.priority ≤ p.priority) ∧
      (cancelToken waitSlot "a1").tokens =
        (removeTokenById waitSlot.tokens "a1").1 ++ [p] ∧
      (cancelToken waitSlot "a1").waitlist = pre ++ post ∧
      markNoShow waitSlot "a1" = cancelToken waitSlot "a1" :=
  ⟨by decide, by decide, C7_promotion_correctness waitSlot "a1" (by decide) (by decide)⟩

/-- C8: cancelling (or no-showing) an identifier that occurs in no occupant
— including a waitlisted identifier — leaves the slot unchanged, and
`markNoShow` equals `cancelToken` on every input. -/
theorem C8_cancel_noop (slot : Slot) (tokenId : String)
    (h : tokenId ∉ tokenIds slot.tokens) :
    cancelToken slot tokenId = slot ∧ markNoShow slot tokenId = slot ∧
    ∀ (s : Slot) (i : String), markNoShow s i = cancelToken s i := by
  refine ⟨cancelToken_not_mem slot tokenId h, ?_, fun s i => rfl⟩
  rw [markNoShow]
  exact cancelToken_not_mem slot tokenId h

/-- C8 (witness): cancelling the waitlisted identifier "w1" leaves
`waitSlot` untouched. -/
theorem C8_cancel_noop_witness :
    "w1" ∉ tokenIds waitSlot.tokens ∧ cancelToken waitSlot "w1" = waitSlot ∧
    markNoShow waitSlot "w1" = waitSlot :=
  ⟨by decide, (C8_cancel_noop waitSlot "w1" (by decide)).1,
    (C8_cancel_noop waitSlot "w1" (by decide)).2.1⟩

/-- C9: when the token can neither be admitted nor displace an occupant, the
decision is `WAITLISTED` exactly when its priority reaches MEDIUM (40) and
`REJECTED` otherwise. -/
theorem C9_waitlist_or_reject (slot : Slot) (token : Token)
    (hca : canAllocateToken slot token = false)
    (hnd : ∀ d, findLowestPriorityMovableToken slot = some d →
      ¬ d.priority < token.priority) :
    (allocateTokenToSlot slot token).status =
      if PriorityLevel.MEDIUM ≤ token.priority then AllocationStatus.WAITLISTED
      else AllocationStatus.REJECTED := by
  rw [allocateTokenToSlot, if_neg (by simp [hca])]
  rcases hfl : findLowestPriorityMovableToken slot with _ | d
  · dsimp only
    by_cases hmed : PriorityLevel.MEDIUM ≤ token.priority
    · rw [if_pos hmed, if_pos hmed]
    · rw [if_neg hmed, if_neg hmed]
  · dsimp only
    rw [if_neg (hnd d hfl)]
    by_cases hmed : PriorityLevel.MEDIUM ≤ token.priority
    · rw [if_pos hmed, if_pos hmed]
    · rw [if_neg hmed, if_neg hmed]

/-- C9 (witness): a MEDIUM-priority ONLINE token facing a full slot with an
unmovable occupant is waitlisted. -/
theorem C9_waitlist_or_reject_witness :
    canAllocateToken stuckSlot onlineTok = false ∧
    (allocateTokenToSlot stuckSlot onlineTok).status =
      (if PriorityLevel.MEDIUM ≤ onlineTok.priority then AllocationStatus.WAITLISTED
        else AllocationStatus.REJECTED) :=
  ⟨by decide,
    C9_waitlist_or_reject stuckSlot onlineTok (by decide)
      (fun d hd => by
        rw [show findLowestPriorityMovableToken stuckSlot = none from by decide] at hd
        exact Option.noConfusion hd)⟩

/-- C10: admission depends only on the slot state and the token's source:
two tokens with equal sources receive the same `canAllocateToken` verdict. -/
theorem C10_source_only (slot : Slot) (t1 t2 : Token) (h : t1.source = t2.source) :
    canAllocateToken slot t1 = canAllocateToken slot t2 := by
  simp only [canAllocateToken, h]

/-- C10 (witness): two ONLINE tokens that differ in identifier, priority,
and movability receive the same verdict on the empty store slot. -/
theorem C10_source_only_witness :
    onlineTok.source = (mkToken "z9" TokenSource.ONLINE 100 false).source ∧
    canAllocateToken emptySlot onlineTok =
      canAllocateToken emptySlot (mkToken "z9" TokenSource.ONLINE 100 false) :=
  ⟨rfl, C10_source_only emptySlot onlineTok (mkToken "z9" TokenSource.ONLINE 100 false) rfl⟩

end Opd
